import Mathlib

/-!
Verification development for the Budget_Planner repository.

The four model files of the repository are shallowly embedded below:
`models/savings_predictor.py`, `models/income_predictor.py`,
`models/expense_predictor.py` and `models/budget_optimizer.py`.
Monetary amounts are modelled as rationals, records as structures whose
fields mirror the dictionary keys the code reads, and a pandas column is
considered present when at least one record carries the key (pandas builds
the column from the union of dictionary keys).  The fitted
`sklearn.linear_model.LinearRegression` is abstracted as an explicit
function parameter `fit` mapping a feature matrix and a target vector to a
prediction function; everything downstream of the fit is embedded
faithfully.  Wall-clock time (`datetime.now().month`) is modelled as an
explicit `nowMonth` argument.
-/

namespace BudgetPlanner

/-- Helper that keeps the first occurrence of every element, in order, as
`pandas.Series.unique` does.  The `seen` accumulator holds elements already
emitted. -/
def uniqueFirstAux {α : Type} [DecidableEq α] (seen : List α) : List α → List α
  | [] => []
  | x :: xs => if x ∈ seen then uniqueFirstAux seen xs else x :: uniqueFirstAux (x :: seen) xs

/-- First-occurrence deduplication, as `pandas.Series.unique`. -/
def uniqueFirst {α : Type} [DecidableEq α] (l : List α) : List α := uniqueFirstAux [] l

/-- Lexicographic order on lists of naturals; used to model the lexicographic
string order that `sklearn.preprocessing.OneHotEncoder` uses to sort its
category vocabulary. -/
def natLexLe : List Nat → List Nat → Bool
  | [], _ => true
  | _ :: _, [] => false
  | a :: as, b :: bs => if a < b then true else if b < a then false else natLexLe as bs

/-- String order by character codes, modelling the lexicographic comparison
used when the encoder sorts category labels. -/
def strLeB (a b : String) : Bool := natLexLe (a.data.map Char.toNat) (b.data.map Char.toNat)

/-- Insert into an already sorted list of strings. -/
def insertSorted (x : String) : List String → List String
  | [] => [x]
  | y :: ys => if strLeB x y then x :: y :: ys else y :: insertSorted x ys

/-- Insertion sort of strings by character-code order, modelling the sorted
vocabulary `OneHotEncoder.categories_`. -/
def sortStrings : List String → List String
  | [] => []
  | x :: xs => insertSorted x (sortStrings xs)

/-- One-hot indicator vector of a label against a vocabulary, modelling
`OneHotEncoder.transform` with `handle_unknown` set to ignore: a label that
is not in the vocabulary yields the all-zero vector. -/
def oneHot (vocab : List String) (lbl : String) : List ℚ :=
  vocab.map fun v => if v = lbl then 1 else 0

/-- Sum of the values of an association list, modelling
`sum(mapping.values())`. -/
def sumVals (l : List (String × ℚ)) : ℚ := (l.map fun p => p.2).sum

/-- Calendar date with year, month and day, as produced by
`pandas.to_datetime` on a parseable value. -/
structure CalDate where
  year : ℤ
  month : ℤ
  day : ℤ
deriving DecidableEq

/-- Date comparison, lexicographic on year, month, day, as datetime
comparison behaves. -/
def dateLeB (a b : CalDate) : Bool :=
  if a.year < b.year then true
  else if b.year < a.year then false
  else if a.month < b.month then true
  else if b.month < a.month then false
  else a.day ≤ b.day

/-- State of a date entry of a record: the key may be missing from the
dictionary, hold an unparseable value (so that `pandas.to_datetime` raises),
or hold a parseable date. -/
inductive DateField
  | absent
  | bad
  | parsed (d : CalDate)
deriving DecidableEq

/-- Whether the date entry is missing from the record. -/
def DateField.isAbsent : DateField → Bool
  | .absent => true
  | _ => false

/-- Whether the date entry would make `pandas.to_datetime` raise. -/
def DateField.isBad : DateField → Bool
  | .bad => true
  | _ => false

/-- The parsed date, if any. -/
def DateField.toParsed : DateField → Option CalDate
  | .parsed d => some d
  | _ => none

/-!  ## Savings predictor (`models/savings_predictor.py`)

`SavingsPredictor` has a single instance field `savings_rate`, initialised
to `0.1`.  Methods are embedded in state-passing style: they take the
current `savings_rate` and return the result paired with the new
`savings_rate`. -/

/-- Income record as read by `SavingsPredictor.calculate_monthly_savings`:
only the amount and date keys are consumed, each possibly missing. -/
structure SIncomeRec where
  amount : Option ℚ
  date : DateField
deriving DecidableEq

/-- Expense record as read by `SavingsPredictor.calculate_monthly_savings`:
only the amount key is consumed. -/
structure SExpenseRec where
  amount : Option ℚ
deriving DecidableEq

/-- Savings record as read by `SavingsPredictor.predict`: only the amount
key is consumed. -/
structure SavingsRec where
  amount : Option ℚ
deriving DecidableEq

/-- The amount column exists, i.e. some record carries the key. -/
def sIncHasAmount (l : List SIncomeRec) : Bool := l.any fun r => r.amount.isSome

/-- Column sum of amounts; pandas sums skip missing values. -/
def sIncTotal (l : List SIncomeRec) : ℚ := (l.filterMap fun r => r.amount).sum

/-- The amount column exists in the expense records. -/
def sExpHasAmount (l : List SExpenseRec) : Bool := l.any fun r => r.amount.isSome

/-- Column sum of expense amounts. -/
def sExpTotal (l : List SExpenseRec) : ℚ := (l.filterMap fun r => r.amount).sum

/-- The date column exists, i.e. some income record carries the key. -/
def sIncHasDate (l : List SIncomeRec) : Bool := l.any fun r => !r.date.isAbsent

/-- Whether converting the date column raises, i.e. some record holds an
unparseable date value. -/
def sIncParseFails (l : List SIncomeRec) : Bool := l.any fun r => r.date.isBad

/-- The parsed dates of the income records. -/
def sIncDates (l : List SIncomeRec) : List CalDate := l.filterMap fun r => r.date.toParsed

/-- Number of months between the earliest and the latest date, computed as
`(end.year - start.year) * 12 + end.month - start.month`, with a minimum of
1, exactly as `calculate_monthly_savings` computes it. -/
def monthSpan (ds : List CalDate) : ℤ :=
  match ds with
  | [] => 1
  | d :: rest =>
    let s := rest.foldl (fun a b => if dateLeB a b then a else b) d
    let e := rest.foldl (fun a b => if dateLeB a b then b else a) d
    max 1 ((e.year - s.year) * 12 + e.month - s.month)

/-- Embedding of `SavingsPredictor.calculate_monthly_savings`.  Returns the
computed monthly savings together with the new `savings_rate` field: the
method overwrites `self.savings_rate` with `total_savings / total_income`
whenever `total_income > 0`. -/
def calculate_monthly_savings (rate : ℚ) (income_data : List SIncomeRec)
    (expense_data : List SExpenseRec) : ℚ × ℚ :=
  if income_data = [] ∨ expense_data = [] then (0, rate)
  else if ¬ (sIncHasAmount income_data = true ∧ sExpHasAmount expense_data = true) then (0, rate)
  else
    let total_income := sIncTotal income_data
    let total_savings := total_income - sExpTotal expense_data
    let rate2 := if 0 < total_income then total_savings / total_income else rate
    if sIncHasDate income_data then
      if sIncParseFails income_data then
        (total_savings / (max 1 income_data.length : ℕ), rate2)
      else
        (total_savings / (monthSpan (sIncDates income_data) : ℚ), rate2)
    else
      (total_savings / (max 1 income_data.length : ℕ), rate2)

/-- Result shape of `SavingsPredictor.predict`. -/
structure SavingsResult where
  next_month : ℚ
  six_month_forecast : List ℚ
  savings_rate_pct : ℚ
deriving DecidableEq

/-- The forecast loop of `SavingsPredictor.predict`: append the current
value, then multiply by the growth factor, for the given number of
iterations. -/
def buildForecast (g : ℚ) : Nat → ℚ → List ℚ
  | 0, _ => []
  | Nat.succ n, cur => cur :: buildForecast g n (cur * g)

/-- Count of savings records whose amount is present; the denominator of the
pandas column mean. -/
def savCount (l : List SavingsRec) : ℕ := (l.filterMap fun r => r.amount).length

/-- Column sum of savings amounts. -/
def savTotal (l : List SavingsRec) : ℚ := (l.filterMap fun r => r.amount).sum

/-- The amount column exists in the savings records. -/
def savHasAmount (l : List SavingsRec) : Bool := l.any fun r => r.amount.isSome

/-- Embedding of `SavingsPredictor.predict`.  The optional income and
expense lists model the optional Python arguments; a missing argument and
an empty list are both falsy in the `if income_data and expense_data` test.
Returns the result paired with the new `savings_rate` field. -/
def predictSavings (rate : ℚ) (savings_data : List SavingsRec)
    (income_data : Option (List SIncomeRec)) (expense_data : Option (List SExpenseRec)) :
    SavingsResult × ℚ :=
  let avg : ℚ :=
    if savings_data ≠ [] then
      if savHasAmount savings_data then savTotal savings_data / (savCount savings_data : ℚ)
      else 0
    else 0
  let incd := income_data.getD []
  let expd := expense_data.getD []
  let next_rate : ℚ × ℚ :=
    if incd ≠ [] ∧ expd ≠ [] then
      let cr := calculate_monthly_savings rate incd expd
      (if 0 < avg ∧ 0 < cr.1 then (avg + cr.1) / 2 else max avg cr.1, cr.2)
    else (avg, rate)
  (⟨next_rate.1, buildForecast (51/50) 6 next_rate.1, next_rate.2 * 100⟩, next_rate.2)

/-- The forecast loop expanded: six entries, first the seed itself, each
later entry one growth factor further. -/
lemma buildForecast_six (g S : ℚ) :
    buildForecast g 6 S = [S, S * g, S * g ^ 2, S * g ^ 3, S * g ^ 4, S * g ^ 5] := by
  have e2 : S * g * g = S * g ^ 2 := by ring
  have e3 : S * g ^ 2 * g = S * g ^ 3 := by ring
  have e4 : S * g ^ 3 * g = S * g ^ 4 := by ring
  have e5 : S * g ^ 4 * g = S * g ^ 5 := by ring
  simp only [buildForecast, e2, e3, e4, e5]

/-- C7: for every input, the six-month savings forecast is exactly the
geometric sequence that starts at the predicted next-month value `S` and
multiplies by 1.02 (= 51/50) at each step: `[S, S*1.02, ..., S*1.02^5]`,
with `S` itself as the first entry. -/
theorem c7_savings_forecast_compounds (rate : ℚ) (sd : List SavingsRec)
    (incd : Option (List SIncomeRec)) (expd : Option (List SExpenseRec)) :
    (predictSavings rate sd incd expd).fst.six_month_forecast =
      [(predictSavings rate sd incd expd).fst.next_month,
       (predictSavings rate sd incd expd).fst.next_month * (51/50),
       (predictSavings rate sd incd expd).fst.next_month * (51/50) ^ 2,
       (predictSavings rate sd incd expd).fst.next_month * (51/50) ^ 3,
       (predictSavings rate sd incd expd).fst.next_month * (51/50) ^ 4,
       (predictSavings rate sd incd expd).fst.next_month * (51/50) ^ 5] := by
  simp only [predictSavings]
  exact buildForecast_six _ _

/-- A parse failure requires an unparseable value in the column, so the
column exists. -/
lemma sIncParseFails_hasDate {l : List SIncomeRec} (h : sIncParseFails l = true) :
    sIncHasDate l = true := by
  simp only [sIncParseFails, List.any_eq_true] at h
  obtain ⟨r, hr, hb⟩ := h
  simp only [sIncHasDate, List.any_eq_true]
  refine ⟨r, hr, ?_⟩
  cases hd : r.date <;> simp [DateField.isBad, DateField.isAbsent, hd] at hb ⊢

/-- Characterization of the new `savings_rate` after
`calculate_monthly_savings`: it becomes `total_savings / total_income`
exactly when both lists are nonempty, both amount columns exist, and total
income is positive; otherwise the field keeps its previous value. -/
lemma cms_snd (rate : ℚ) (i : List SIncomeRec) (e : List SExpenseRec) :
    (calculate_monthly_savings rate i e).snd =
      if i ≠ [] ∧ e ≠ [] ∧ sIncHasAmount i = true ∧ sExpHasAmount e = true ∧ 0 < sIncTotal i
      then (sIncTotal i - sExpTotal e) / sIncTotal i else rate := by
  by_cases hie : i = [] ∨ e = []
  · have hr : ¬ (i ≠ [] ∧ e ≠ [] ∧ sIncHasAmount i = true ∧ sExpHasAmount e = true ∧
        0 < sIncTotal i) := by
      rintro ⟨hi, he, -⟩
      rcases hie with h | h
      · exact hi h
      · exact he h
    simp only [calculate_monthly_savings, if_pos hie, if_neg hr]
  · by_cases h2 : sIncHasAmount i = true ∧ sExpHasAmount e = true
    · have hnn : ¬¬ (sIncHasAmount i = true ∧ sExpHasAmount e = true) := not_not_intro h2
      have key : (calculate_monthly_savings rate i e).snd =
          if 0 < sIncTotal i then (sIncTotal i - sExpTotal e) / sIncTotal i else rate := by
        simp only [calculate_monthly_savings, if_neg hie, if_neg hnn]
        split_ifs <;> rfl
      rw [key]
      push_neg at hie
      by_cases h3 : 0 < sIncTotal i
      · rw [if_pos h3, if_pos ⟨hie.1, hie.2, h2.1, h2.2, h3⟩]
      · rw [if_neg h3, if_neg (fun hc => h3 hc.2.2.2.2)]
    · have hr : ¬ (i ≠ [] ∧ e ≠ [] ∧ sIncHasAmount i = true ∧ sExpHasAmount e = true ∧
        0 < sIncTotal i) := fun hc => h2 ⟨hc.2.2.1, hc.2.2.2.1⟩
      simp only [calculate_monthly_savings, if_neg hie, if_pos h2, if_neg hr]

/-- The new `savings_rate` after `predict` is whatever
`calculate_monthly_savings` leaves when both optional arguments are
supplied nonempty, and the old value otherwise. -/
lemma predictSavings_snd (rate : ℚ) (sd : List SavingsRec)
    (io : Option (List SIncomeRec)) (eo : Option (List SExpenseRec)) :
    (predictSavings rate sd io eo).snd =
      if io.getD [] ≠ [] ∧ eo.getD [] ≠ []
      then (calculate_monthly_savings rate (io.getD []) (eo.getD [])).snd else rate := by
  simp only [predictSavings]
  split_ifs <;> rfl

/-- C2 (amended): `SavingsPredictor` is not field-preserving.  Its single
instance field `savings_rate` is overwritten by `calculate_monthly_savings`
(and hence by `predict`) exactly when both income and expense data are
supplied nonempty with amount columns and total income is positive, in
which case it becomes `total_savings / total_income`; in every other case
the field is unchanged. -/
theorem c2_savings_rate_characterization :
    (∀ (rate : ℚ) (i : List SIncomeRec) (e : List SExpenseRec),
      (calculate_monthly_savings rate i e).snd =
        if i ≠ [] ∧ e ≠ [] ∧ sIncHasAmount i = true ∧ sExpHasAmount e = true ∧ 0 < sIncTotal i
        then (sIncTotal i - sExpTotal e) / sIncTotal i else rate)
    ∧ (∀ (rate : ℚ) (sd : List SavingsRec) (io : Option (List SIncomeRec))
        (eo : Option (List SExpenseRec)),
      (predictSavings rate sd io eo).snd =
        if io.getD [] ≠ [] ∧ eo.getD [] ≠ [] ∧ sIncHasAmount (io.getD []) = true ∧
            sExpHasAmount (eo.getD []) = true ∧ 0 < sIncTotal (io.getD [])
        then (sIncTotal (io.getD []) - sExpTotal (eo.getD [])) / sIncTotal (io.getD [])
        else rate) := by
  refine ⟨cms_snd, fun rate sd io eo => ?_⟩
  rw [predictSavings_snd, cms_snd]
  by_cases h : io.getD [] ≠ [] ∧ eo.getD [] ≠ []
  · rw [if_pos h]
  · rw [if_neg h, if_neg (fun hc => h ⟨hc.1, hc.2.1⟩)]

/-- C2 counterexample: a single `predict` call with income of amount 100
and expenses of amount 40 changes the `savings_rate` field from its
initial value 1/10 (it becomes 3/5), so `predict` is not side-effect-free
on the instance state. -/
theorem c2_counterexample :
    (predictSavings (1/10) [] (some [⟨some 100, DateField.absent⟩]) (some [⟨some 40⟩])).snd
      ≠ 1/10 := by
  norm_num [predictSavings, calculate_monthly_savings, sIncHasAmount, sExpHasAmount,
    sIncHasDate, sIncParseFails, sIncTotal, sExpTotal, DateField.isAbsent, DateField.isBad,
    List.filterMap_cons, List.filterMap_nil, List.sum_cons, List.sum_nil]

/-- C3: when income and expense data are nonempty with amount columns, the
monthly savings returned by `calculate_monthly_savings` is `total_savings`
divided by the month span `max 1 ((endYear - startYear)*12 + endMonth -
startMonth)` between the earliest and latest income dates when the date
column exists and every value parses, and `total_savings / max(1, number
of income records)` when the date column is missing or any value fails to
parse. -/
theorem c3_monthly_savings_divisor (rate : ℚ) (i : List SIncomeRec) (e : List SExpenseRec)
    (hi : i ≠ []) (he : e ≠ []) (hai : sIncHasAmount i = true) (hae : sExpHasAmount e = true) :
    ((sIncHasDate i = true ∧ sIncParseFails i = false) →
      (calculate_monthly_savings rate i e).fst =
        (sIncTotal i - sExpTotal e) / (monthSpan (sIncDates i) : ℚ))
    ∧ ((sIncHasDate i = false ∨ sIncParseFails i = true) →
      (calculate_monthly_savings rate i e).fst =
        (sIncTotal i - sExpTotal e) / ((max 1 i.length : ℕ) : ℚ)) := by
  have h1 : ¬ (i = [] ∨ e = []) := by
    rintro (h | h)
    · exact hi h
    · exact he h
  have hnn : ¬¬ (sIncHasAmount i = true ∧ sExpHasAmount e = true) := not_not_intro ⟨hai, hae⟩
  simp only [calculate_monthly_savings, if_neg h1, if_neg hnn]
  constructor
  · rintro ⟨hd, hp⟩
    have hpn : ¬ sIncParseFails i = true := by simp [hp]
    rw [if_pos hd, if_neg hpn]
  · rintro (hd | hp)
    · have hdn : ¬ sIncHasDate i = true := by simp [hd]
      rw [if_neg hdn]
    · rw [if_pos (sIncParseFails_hasDate hp), if_pos hp]

/-- Concrete income data for the C3 witness: two dated records, January and
March 2024, amounts 100 and 200. -/
def c3incA : List SIncomeRec :=
  [⟨some 100, DateField.parsed ⟨2024, 1, 5⟩⟩, ⟨some 200, DateField.parsed ⟨2024, 3, 2⟩⟩]

/-- Concrete expense data for the C3 witness: one record of amount 50. -/
def c3expA : List SExpenseRec := [⟨some 50⟩]

/-- Witness for C3 at concrete data with parseable dates spanning January
to March 2024. -/
theorem c3_witness :
    (calculate_monthly_savings (1/10) c3incA c3expA).fst =
      (sIncTotal c3incA - sExpTotal c3expA) / (monthSpan (sIncDates c3incA) : ℚ) :=
  (c3_monthly_savings_divisor (1/10) c3incA c3expA (by decide) (by decide) (by decide)
    (by decide)).1 ⟨by decide, by decide⟩

/-!  ## Income predictor (`models/income_predictor.py`)

`IncomePredictor` keeps per-instance state: the fitted regression model,
the encoder vocabulary, the trained flag and the saved source list.  The
ordinary-least-squares fit of `sklearn.linear_model.LinearRegression` is
abstracted as the explicit parameter `fit`; the records here carry the
fields the predictor requires (`_prepare_data` rejects the input before
touching the encoder when a required column is missing, and the claims
against this component only concern complete records). -/

/-- Income record as consumed by `IncomePredictor`: source, amount and a
parsed date. -/
structure IncomeRec where
  source : String
  amount : ℚ
  date : CalDate
deriving DecidableEq

/-- Instance state of `IncomePredictor`: the trained flag, the fitted
model, the encoder vocabulary captured by the last `fit_transform`, and
the source list saved by the last successful `train`. -/
structure IncomeState where
  is_trained : Bool
  model : List ℚ → ℚ
  vocab : List String
  sources : List String

/-- Freshly constructed `IncomePredictor`: untrained, with an unfitted
encoder and model (the model function is never consulted before a
successful fit, so its initial value is arbitrary). -/
def initIncomeState : IncomeState := ⟨false, fun _ => 0, [], []⟩

/-- Encoder vocabulary captured from the source column: the distinct
sources in sorted order, as `OneHotEncoder.fit` records them. -/
def incVocabOf (d : List IncomeRec) : List String :=
  sortStrings (uniqueFirst (d.map fun r => r.source))

/-- Training feature rows of `_prepare_data`: one-hot source followed by
the month of the record date. -/
def incFeatureRows (vocab : List String) (d : List IncomeRec) : List (List ℚ) :=
  d.map fun r => oneHot vocab r.source ++ [(r.date.month : ℚ)]

/-- Training targets: the record amounts. -/
def incTargets (d : List IncomeRec) : List ℚ := d.map fun r => r.amount

/-- Embedding of `IncomePredictor.train`.  Note that `_prepare_data` calls
`encoder.fit_transform` before `train` checks the row count, so a call
that fails only because fewer than 2 rows are available still refits the
encoder vocabulary. -/
def trainIncome (fit : List (List ℚ) → List ℚ → (List ℚ → ℚ)) (s : IncomeState)
    (d : List IncomeRec) : IncomeState :=
  if d = [] then { s with is_trained := false }
  else
    let vocab := incVocabOf d
    if d.length < 2 then { s with is_trained := false, vocab := vocab }
    else
      { is_trained := true, model := fit (incFeatureRows vocab d) (incTargets d),
        vocab := vocab, sources := uniqueFirst (d.map fun r => r.source) }

/-- The target month: the current month plus one, wrapping December to
January, as both predictors compute it from `datetime.now()`. -/
def nextMonthOf (nowMonth : ℤ) : ℤ := if nowMonth < 12 then nowMonth + 1 else 1

/-- The default source list used when no sources appear in the input. -/
def defaultSources : List String :=
  ["salary", "freelance", "business", "investments", "rental", "gifts", "other"]

/-- The sources predicted for: the distinct sources observed in the input,
or the default list when there are none. -/
def incPredSources (d : List IncomeRec) : List String :=
  let u := uniqueFirst (d.map fun r => r.source)
  if u = [] then defaultSources else u

/-- State of the predictor after the implicit training step of `predict`:
unchanged when already trained, else the result of `train`. -/
def incStateAfter (fit : List (List ℚ) → List ℚ → (List ℚ → ℚ)) (s : IncomeState)
    (d : List IncomeRec) : IncomeState :=
  if s.is_trained then s else trainIncome fit s d

/-- Per-source predictions of `IncomePredictor.predict`: encode the source,
append the target month, apply the model, clamp negatives to zero. -/
def incPredictions (model : List ℚ → ℚ) (vocab : List String) (d : List IncomeRec)
    (nowMonth : ℤ) : List (String × ℚ) :=
  (incPredSources d).map fun src =>
    (src, max 0 (model (oneHot vocab src ++ [(nextMonthOf nowMonth : ℚ)])))

/-- Result shape of `IncomePredictor.predict`. -/
structure IncomeResult where
  total : ℚ
  sources : List (String × ℚ)
deriving DecidableEq

/-- Embedding of `IncomePredictor.predict`, returning the result together
with the possibly updated instance state. -/
def predictIncome (fit : List (List ℚ) → List ℚ → (List ℚ → ℚ)) (s : IncomeState)
    (d : List IncomeRec) (nowMonth : ℤ) : IncomeResult × IncomeState :=
  if d.length < 2 then (⟨0, []⟩, s)
  else
    let t := incStateAfter fit s d
    if t.is_trained = false then (⟨0, []⟩, t)
    else
      let preds := incPredictions t.model t.vocab d nowMonth
      let total0 := sumVals preds
      let total :=
        if 2 ≤ d.length ∧ total0 = 0 then (incTargets d).sum / (d.length : ℚ) else total0
      (⟨total, preds⟩, t)

/-!  ## Expense predictor (`models/expense_predictor.py`)

`ExpensePredictor` mirrors the income predictor with a weekday feature and
a minimum of 3 records at prediction time.  Records here model possibly
missing dictionary keys, since the claims against this component exercise
the training-failure path; the date key, when present, is represented by
the two features the code extracts from the parsed date. -/

/-- The time features extracted from a parsed expense date: the calendar
month and the day of the week. -/
structure EDate where
  month : ℤ
  dow : ℤ
deriving DecidableEq

/-- Expense record as consumed by `ExpensePredictor`: each key may be
missing from the underlying dictionary. -/
structure ExpenseRec where
  category : Option String
  amount : Option ℚ
  date : Option EDate
deriving DecidableEq

/-- The category column exists. -/
def expHasCat (d : List ExpenseRec) : Bool := d.any fun r => r.category.isSome

/-- The amount column exists. -/
def expHasAmt (d : List ExpenseRec) : Bool := d.any fun r => r.amount.isSome

/-- The date column exists. -/
def expHasDate (d : List ExpenseRec) : Bool := d.any fun r => r.date.isSome

/-- Encoder vocabulary captured from the category column: the distinct
categories present, sorted. -/
def expVocabOf (d : List ExpenseRec) : List String :=
  sortStrings (uniqueFirst (d.filterMap fun r => r.category))

/-- Training feature rows: one-hot category, month, day of week.  Records
with a missing value in a present column carry placeholder features; they
only feed the abstract fit and no claim depends on them. -/
def expFeatureRows (vocab : List String) (d : List ExpenseRec) : List (List ℚ) :=
  d.map fun r =>
    oneHot vocab (r.category.getD "") ++
      [((r.date.getD ⟨0, 0⟩).month : ℚ), ((r.date.getD ⟨0, 0⟩).dow : ℚ)]

/-- Training targets: the record amounts. -/
def expTargets (d : List ExpenseRec) : List ℚ := d.map fun r => r.amount.getD 0

/-- Instance state of `ExpensePredictor`. -/
structure ExpenseState where
  is_trained : Bool
  model : List ℚ → ℚ
  vocab : List String
  categories : List String

/-- Freshly constructed `ExpensePredictor`. -/
def initExpenseState : ExpenseState := ⟨false, fun _ => 0, [], []⟩

/-- Embedding of `ExpensePredictor.train`.  `_prepare_data` returns early,
before touching the encoder, when the input is empty or a required column
is missing; otherwise `encoder.fit_transform` refits the vocabulary even
when the subsequent row-count check makes the call fail. -/
def trainExpense (fit : List (List ℚ) → List ℚ → (List ℚ → ℚ)) (s : ExpenseState)
    (d : List ExpenseRec) : ExpenseState :=
  if d = [] then { s with is_trained := false }
  else if (expHasCat d && expHasAmt d && expHasDate d) = false then
    { s with is_trained := false }
  else
    let vocab := expVocabOf d
    if d.length < 2 then { s with is_trained := false, vocab := vocab }
    else
      { is_trained := true, model := fit (expFeatureRows vocab d) (expTargets d),
        vocab := vocab, categories := uniqueFirst (d.filterMap fun r => r.category) }

/-- The 8 canonical expense categories, in the order the code lists them. -/
def canonicalCategories : List String :=
  ["housing", "utilities", "food", "transportation", "entertainment", "health",
   "education", "other"]

/-- The categories predicted for: distinct observed categories followed by
any missing canonical ones, or the canonical list when the category column
is absent. -/
def expPredCategories (d : List ExpenseRec) : List String :=
  if expHasCat d then
    let observed := uniqueFirst (d.filterMap fun r => r.category)
    observed ++ canonicalCategories.filter fun c => c ∉ observed
  else canonicalCategories

/-- Per-category prediction: for each weekday 0..6, encode the category,
append target month and weekday, apply the model, clamp negatives to zero,
divide by 7 and accumulate. -/
def expCategoryPrediction (model : List ℚ → ℚ) (vocab : List String) (cat : String)
    (nowMonth : ℤ) : ℚ :=
  ((List.range 7).map fun day =>
    max 0 (model (oneHot vocab cat ++ [(nextMonthOf nowMonth : ℚ), (day : ℚ)])) / 7).sum

/-- The per-category prediction mapping. -/
def expPredictions (model : List ℚ → ℚ) (vocab : List String) (d : List ExpenseRec)
    (nowMonth : ℤ) : List (String × ℚ) :=
  (expPredCategories d).map fun cat => (cat, expCategoryPrediction model vocab cat nowMonth)

/-- Result shape of `ExpensePredictor.predict`. -/
structure ExpenseResult where
  total : ℚ
  categories : List (String × ℚ)
deriving DecidableEq

/-- The fixed all-zero result: total 0 and each of the 8 canonical
categories at 0, as both zero-returning branches of `predict` build it. -/
def zeroExpenseResult : ExpenseResult :=
  ⟨0, [("housing", 0), ("utilities", 0), ("food", 0), ("transportation", 0),
       ("entertainment", 0), ("health", 0), ("education", 0), ("other", 0)]⟩

/-- State of the expense predictor after the implicit training step. -/
def expStateAfter (fit : List (List ℚ) → List ℚ → (List ℚ → ℚ)) (s : ExpenseState)
    (d : List ExpenseRec) : ExpenseState :=
  if s.is_trained then s else trainExpense fit s d

/-- Embedding of `ExpensePredictor.predict`, returning the result together
with the possibly updated instance state. -/
def predictExpenses (fit : List (List ℚ) → List ℚ → (List ℚ → ℚ)) (s : ExpenseState)
    (d : List ExpenseRec) (nowMonth : ℤ) : ExpenseResult × ExpenseState :=
  if d.length < 3 then (zeroExpenseResult, s)
  else
    let t := expStateAfter fit s d
    if t.is_trained = false then (zeroExpenseResult, t)
    else
      let preds := expPredictions t.model t.vocab d nowMonth
      (⟨sumVals preds, preds⟩, t)

/-- A list of labelled rationals with nonnegative values and zero sum has
all values zero. -/
lemma sumVals_all_zero {l : List (String × ℚ)} (h : ∀ p ∈ l, 0 ≤ p.2)
    (hs : sumVals l = 0) : ∀ p ∈ l, p.2 = 0 := by
  induction l with
  | nil => simp
  | cons p t ih =>
    simp only [sumVals, List.map_cons, List.sum_cons] at hs
    have hp : 0 ≤ p.2 := h p (List.mem_cons_self p t)
    have hts : 0 ≤ (t.map fun q => q.2).sum := by
      apply List.sum_nonneg
      intro x hx
      obtain ⟨q, hq, rfl⟩ := List.mem_map.mp hx
      exact h q (List.mem_cons_of_mem _ hq)
    have hp0 : p.2 = 0 := le_antisymm (by linarith) hp
    have ht0 : sumVals t = 0 := by simp only [sumVals]; linarith
    intro q hq
    rcases List.mem_cons.mp hq with rfl | hq2
    · exact hp0
    · exact ih (fun x hx => h x (List.mem_cons_of_mem _ hx)) ht0 q hq2

/-- Every per-source prediction is clamped nonnegative. -/
lemma incPredictions_nonneg (model : List ℚ → ℚ) (vocab : List String)
    (d : List IncomeRec) (m : ℤ) : ∀ p ∈ incPredictions model vocab d m, 0 ≤ p.2 := by
  intro p hp
  obtain ⟨src, -, rfl⟩ := List.mem_map.mp hp
  exact le_max_left 0 _

/-- After the implicit training step, a predictor given at least 2 records
is trained. -/
lemma incStateAfter_trained (fit : List (List ℚ) → List ℚ → (List ℚ → ℚ)) (s : IncomeState)
    {d : List IncomeRec} (h2 : 2 ≤ d.length) :
    (incStateAfter fit s d).is_trained = true := by
  unfold incStateAfter
  by_cases hst : s.is_trained = true
  · simp [hst]
  · have hd : d ≠ [] := by
      intro h
      rw [h] at h2
      simp at h2
    have hlt : ¬ d.length < 2 := by omega
    simp only [hst, if_neg, if_false, Bool.false_eq_true]
    unfold trainIncome
    rw [if_neg hd, if_neg hlt]

/-- C4: when the per-source predictions sum to exactly zero and at least 2
records are supplied, `IncomePredictor.predict` returns the arithmetic
mean of the historical amounts as `total`, while the returned `sources`
mapping keeps the per-source predictions, which are then all zero — so
`total` and the sum of the breakdown may disagree in this fallback case. -/
theorem c4_income_zero_fallback (fit : List (List ℚ) → List ℚ → (List ℚ → ℚ))
    (s : IncomeState) (d : List IncomeRec) (m : ℤ) (h2 : 2 ≤ d.length)
    (h0 : sumVals (incPredictions (incStateAfter fit s d).model
      (incStateAfter fit s d).vocab d m) = 0) :
    (predictIncome fit s d m).fst.total = (incTargets d).sum / (d.length : ℚ)
    ∧ (predictIncome fit s d m).fst.sources =
        incPredictions (incStateAfter fit s d).model (incStateAfter fit s d).vocab d m
    ∧ ∀ p ∈ (predictIncome fit s d m).fst.sources, p.2 = 0 := by
  have ht := incStateAfter_trained fit s h2
  have hlt : ¬ d.length < 2 := by omega
  have htn : ¬ (incStateAfter fit s d).is_trained = false := by simp [ht]
  have hr : (predictIncome fit s d m).fst =
      ⟨(incTargets d).sum / (d.length : ℚ),
       incPredictions (incStateAfter fit s d).model (incStateAfter fit s d).vocab d m⟩ := by
    simp only [predictIncome, if_neg hlt, if_neg htn, if_pos (And.intro h2 h0)]
  refine ⟨by rw [hr], by rw [hr], ?_⟩
  rw [hr]
  exact sumVals_all_zero (incPredictions_nonneg _ _ _ _) h0

/-- A fit that always predicts zero; used to instantiate the abstract
regression at concrete inputs. -/
def zeroFit : List (List ℚ) → List ℚ → (List ℚ → ℚ) := fun _ _ _ => 0

/-- Concrete income data for the C4 witness: two salary records. -/
def c4data : List IncomeRec := [⟨"salary", 100, ⟨2024, 1, 1⟩⟩, ⟨"salary", 200, ⟨2024, 2, 1⟩⟩]

/-- Witness for C4: with the zero fit and two salary records of 100 and
200, the per-source predictions sum to zero and the returned total is
their mean. -/
theorem c4_witness :
    (predictIncome zeroFit initIncomeState c4data 5).fst.total =
      (incTargets c4data).sum / (c4data.length : ℚ) :=
  (c4_income_zero_fallback zeroFit initIncomeState c4data 5 (by decide)
    (by norm_num [incStateAfter, initIncomeState, trainIncome, c4data, incVocabOf,
      incPredictions, incPredSources, uniqueFirst, uniqueFirstAux, sortStrings,
      insertSorted, strLeB, natLexLe, oneHot, sumVals, zeroFit, nextMonthOf,
      List.cons_ne_nil])).1

/-- Every per-category expense prediction is a sum of clamped
nonnegative terms. -/
lemma expCategoryPrediction_nonneg (model : List ℚ → ℚ) (vocab : List String)
    (cat : String) (m : ℤ) : 0 ≤ expCategoryPrediction model vocab cat m := by
  apply List.sum_nonneg
  intro x hx
  obtain ⟨day, -, rfl⟩ := List.mem_map.mp hx
  exact div_nonneg (le_max_left 0 _) (by norm_num)

/-- Every entry of the expense prediction mapping is nonnegative. -/
lemma expPredictions_nonneg (model : List ℚ → ℚ) (vocab : List String)
    (d : List ExpenseRec) (m : ℤ) : ∀ p ∈ expPredictions model vocab d m, 0 ≤ p.2 := by
  intro p hp
  obtain ⟨cat, -, rfl⟩ := List.mem_map.mp hp
  exact expCategoryPrediction_nonneg _ _ _ _

/-- The all-zero result has nonnegative total and values. -/
lemma zeroExpenseResult_nonneg :
    0 ≤ zeroExpenseResult.total ∧ ∀ p ∈ zeroExpenseResult.categories, 0 ≤ p.2 := by
  constructor
  · norm_num [zeroExpenseResult]
  · intro p hp
    simp only [zeroExpenseResult, List.mem_cons, List.not_mem_nil, or_false] at hp
    rcases hp with h | h | h | h | h | h | h | h <;> simp [h]

/-- The sum of nonnegative labelled values is nonnegative. -/
lemma sumVals_nonneg {l : List (String × ℚ)} (h : ∀ p ∈ l, 0 ≤ p.2) : 0 ≤ sumVals l := by
  apply List.sum_nonneg
  intro x hx
  obtain ⟨q, hq, rfl⟩ := List.mem_map.mp hx
  exact h q hq

/-- C6: predictions are clamped at zero.  For the expense predictor the
returned total and every per-category value are nonnegative
unconditionally; for the income predictor the same holds whenever the
historical amounts are nonnegative (as the data model requires), covering
also the mean-of-history fallback. -/
theorem c6_predictions_clamped_nonneg :
    (∀ (fit : List (List ℚ) → List ℚ → (List ℚ → ℚ)) (s : ExpenseState)
        (d : List ExpenseRec) (m : ℤ),
      0 ≤ (predictExpenses fit s d m).fst.total ∧
      ∀ p ∈ (predictExpenses fit s d m).fst.categories, 0 ≤ p.2)
    ∧ (∀ (fit : List (List ℚ) → List ℚ → (List ℚ → ℚ)) (s : IncomeState)
        (d : List IncomeRec) (m : ℤ), (∀ r ∈ d, 0 ≤ r.amount) →
      0 ≤ (predictIncome fit s d m).fst.total ∧
      ∀ p ∈ (predictIncome fit s d m).fst.sources, 0 ≤ p.2) := by
  constructor
  · intro fit s d m
    simp only [predictExpenses]
    split_ifs
    · exact zeroExpenseResult_nonneg
    · exact zeroExpenseResult_nonneg
    · exact ⟨sumVals_nonneg (expPredictions_nonneg _ _ _ _), expPredictions_nonneg _ _ _ _⟩
  · intro fit s d m hamt
    have hmean : 0 ≤ (incTargets d).sum / (d.length : ℚ) := by
      apply div_nonneg
      · apply List.sum_nonneg
        intro x hx
        obtain ⟨r, hr, rfl⟩ := List.mem_map.mp hx
        exact hamt r hr
      · positivity
    simp only [predictIncome]
    split_ifs
    · exact ⟨le_refl 0, by simp⟩
    · exact ⟨le_refl 0, by simp⟩
    · exact ⟨hmean, incPredictions_nonneg _ _ _ _⟩
    · exact ⟨sumVals_nonneg (incPredictions_nonneg _ _ _ _), incPredictions_nonneg _ _ _ _⟩

/-- Witness for C6 at concrete data: nonnegative amounts give a
nonnegative predicted income total. -/
theorem c6_witness : 0 ≤ (predictIncome zeroFit initIncomeState c4data 5).fst.total :=
  (c6_predictions_clamped_nonneg.2 zeroFit initIncomeState c4data 5
    (by decide)).1

/-- C5: with fewer than 3 records `ExpensePredictor.predict` returns the
fixed all-zero shape, the same shape is returned when the implicit
training of an untrained instance fails because a required column is
missing, and that shape consists of exactly the 8 canonical categories
each mapped to 0. -/
theorem c5_expense_insufficient_data (fit : List (List ℚ) → List ℚ → (List ℚ → ℚ))
    (s : ExpenseState) (d : List ExpenseRec) (m : ℤ) :
    (d.length < 3 → (predictExpenses fit s d m).fst = zeroExpenseResult)
    ∧ (s.is_trained = false → (expHasCat d && expHasAmt d && expHasDate d) = false →
        (predictExpenses fit s d m).fst = zeroExpenseResult)
    ∧ zeroExpenseResult.categories = canonicalCategories.map fun c => (c, 0) := by
  refine ⟨?_, ?_, rfl⟩
  · intro h3
    simp [predictExpenses, h3]
  · intro hst hcols
    by_cases h3 : d.length < 3
    · simp [predictExpenses, h3]
    · have hd : d ≠ [] := by
        intro h
        rw [h] at h3
        simp at h3
      have hfail : (expStateAfter fit s d).is_trained = false := by
        unfold expStateAfter trainExpense
        simp [hst, hd, hcols]
      simp [predictExpenses, h3, hfail]

/-- Witness for C5: the empty input yields the all-zero canonical shape. -/
theorem c5_witness : (predictExpenses zeroFit initExpenseState [] 5).fst = zeroExpenseResult :=
  (c5_expense_insufficient_data zeroFit initExpenseState [] 5).1 (by decide)

/-- A `predict` call on an already trained instance leaves the state
untouched. -/
lemma predictExpenses_snd_of_trained (fit : List (List ℚ) → List ℚ → (List ℚ → ℚ))
    {s : ExpenseState} (d : List ExpenseRec) (m : ℤ) (h : s.is_trained = true) :
    (predictExpenses fit s d m).snd = s := by
  simp only [predictExpenses, expStateAfter, h]
  split_ifs <;> rfl

/-- An operation on one `ExpensePredictor` instance: an explicit `train`
call, or a `predict` call (which may train implicitly). -/
inductive ExpenseOp
  | train (d : List ExpenseRec)
  | predict (d : List ExpenseRec) (nowMonth : ℤ)

/-- One step of an operation sequence, tracking alongside the state the
vocabulary captured by the most recent successful training, if any
(`predict` counts as a training event exactly when it trains implicitly). -/
def expStep (fit : List (List ℚ) → List ℚ → (List ℚ → ℚ))
    (p : ExpenseState × Option (List String)) (op : ExpenseOp) :
    ExpenseState × Option (List String) :=
  match op with
  | ExpenseOp.train d =>
    let s2 := trainExpense fit p.1 d
    (s2, if s2.is_trained = true then some s2.vocab else p.2)
  | ExpenseOp.predict d m =>
    let s2 := (predictExpenses fit p.1 d m).snd
    (s2, if p.1.is_trained = false ∧ s2.is_trained = true then some s2.vocab else p.2)

/-- Run an operation sequence from a freshly constructed instance. -/
def expRun (fit : List (List ℚ) → List ℚ → (List ℚ → ℚ)) (ops : List ExpenseOp) :
    ExpenseState × Option (List String) :=
  ops.foldl (expStep fit) (initExpenseState, none)

/-- The tracking invariant: whenever the instance is trained, its current
encoder vocabulary is the one captured at the most recent successful
training. -/
lemma expStep_fold_inv (fit : List (List ℚ) → List ℚ → (List ℚ → ℚ)) (ops : List ExpenseOp) :
    ∀ p : ExpenseState × Option (List String), (p.1.is_trained = true → p.2 = some p.1.vocab) →
    ((ops.foldl (expStep fit) p).1.is_trained = true →
      (ops.foldl (expStep fit) p).2 = some (ops.foldl (expStep fit) p).1.vocab) := by
  induction ops with
  | nil => exact fun p h => h
  | cons op rest ih =>
    intro p hp
    simp only [List.foldl_cons]
    apply ih
    cases op with
    | train d =>
      intro ht
      simp only [expStep] at ht ⊢
      simp [ht]
    | predict d m =>
      intro ht
      simp only [expStep] at ht ⊢
      by_cases hst : p.1.is_trained = true
      · have hsnd := predictExpenses_snd_of_trained fit d m hst
        rw [hsnd] at ht ⊢
        have hcond : ¬ (p.1.is_trained = false ∧ p.1.is_trained = true) := by simp [hst]
        rw [if_neg hcond]
        exact hp hst
      · have hst2 : p.1.is_trained = false := by
          cases hb : p.1.is_trained
          · rfl
          · exact absurd hb hst
        rw [if_pos ⟨hst2, ht⟩]

/-- C8 (amended): along any operation sequence on one instance, whenever a
prediction can use the encoder (the instance is trained), the vocabulary
it encodes with is the one captured at the most recent successful
training; encoding a label outside the vocabulary yields the all-zero
vector; and a `train` call that fails because the input is empty or a
required column is missing leaves the vocabulary unchanged.  (A train
call that fails only because fewer than 2 rows are available does refit
the vocabulary; see the counterexample.) -/
theorem c8_encoder_vocabulary (fit : List (List ℚ) → List ℚ → (List ℚ → ℚ))
    (ops : List ExpenseOp) :
    ((expRun fit ops).1.is_trained = true →
      (expRun fit ops).2 = some (expRun fit ops).1.vocab)
    ∧ (∀ (vocab : List String) (lbl : String), lbl ∉ vocab →
        oneHot vocab lbl = vocab.map fun _ => (0 : ℚ))
    ∧ (∀ (s : ExpenseState) (d : List ExpenseRec),
        d = [] ∨ (expHasCat d && expHasAmt d && expHasDate d) = false →
        (trainExpense fit s d).vocab = s.vocab) := by
  refine ⟨expStep_fold_inv fit ops (initExpenseState, none) (by simp [initExpenseState]),
    ?_, ?_⟩
  · intro vocab lbl h
    simp only [oneHot]
    apply List.map_congr_left
    intro v hv
    have hvne : ¬ v = lbl := fun hc => h (hc ▸ hv)
    rw [if_neg hvne]
  · intro s d hcase
    rcases hcase with h | h
    · simp [trainExpense, h]
    · by_cases hd : d = []
      · simp [trainExpense, hd]
      · simp [trainExpense, hd, h]

/-- Concrete complete expense record with category food. -/
def c8rec1 : ExpenseRec := ⟨some "food", some 10, some ⟨1, 2⟩⟩

/-- Concrete complete expense record with category rent. -/
def c8rec2 : ExpenseRec := ⟨some "rent", some 20, some ⟨1, 3⟩⟩

/-- Concrete complete expense record with category x. -/
def c8rec3 : ExpenseRec := ⟨some "x", some 5, some ⟨2, 4⟩⟩

/-- Operation sequence for the C8 witness: one successful train call. -/
def c8ops : List ExpenseOp := [ExpenseOp.train [c8rec1, c8rec2]]

/-- Witness for C8: after one successful train call the tracked last
successful vocabulary is the current one. -/
theorem c8_witness : (expRun zeroFit c8ops).2 = some (expRun zeroFit c8ops).1.vocab :=
  (c8_encoder_vocabulary zeroFit c8ops).1
    (by simp [expRun, expStep, c8ops, trainExpense, initExpenseState, c8rec1, c8rec2,
      expHasCat, expHasAmt, expHasDate, List.cons_ne_nil])

/-- C8 counterexample: a `train` call that fails (returns the untrained
state) because only one usable row is available still refits the encoder
vocabulary, because `_prepare_data` calls `encoder.fit_transform` before
`train` checks the row count.  Starting from an instance successfully
trained on categories food and rent, a failed train on a single record of
category x leaves the instance untrained but changes the vocabulary. -/
theorem c8_counterexample :
    (trainExpense zeroFit (trainExpense zeroFit initExpenseState [c8rec1, c8rec2])
        [c8rec3]).is_trained = false
    ∧ (trainExpense zeroFit (trainExpense zeroFit initExpenseState [c8rec1, c8rec2])
        [c8rec3]).vocab
      ≠ (trainExpense zeroFit initExpenseState [c8rec1, c8rec2]).vocab := by
  constructor <;>
    simp [trainExpense, initExpenseState, c8rec1, c8rec2, c8rec3, expHasCat, expHasAmt,
      expHasDate, expVocabOf, uniqueFirst, uniqueFirstAux, sortStrings, insertSorted,
      strLeB, natLexLe, zeroFit, List.cons_ne_nil]

/-- C10: prediction on a freshly constructed predictor is a deterministic
function of the input.  Wall-clock time is an explicit parameter of the
embedding (`datetime.now().month`), and the ordinary-least-squares fit is
the explicit deterministic parameter `fit` shared by both instances; with
those fixed, two freshly constructed instances given the same input
produce identical results and identical final states. -/
theorem c10_fresh_predictor_deterministic (fit : List (List ℚ) → List ℚ → (List ℚ → ℚ))
    (d : List ExpenseRec) (m : ℤ) (s1 s2 : ExpenseState)
    (h1 : s1 = initExpenseState) (h2 : s2 = initExpenseState) :
    predictExpenses fit s1 d m = predictExpenses fit s2 d m := by
  subst h1
  subst h2
  rfl

/-- Witness for C10 at a concrete input. -/
theorem c10_witness :
    predictExpenses zeroFit initExpenseState [c8rec1, c8rec2, c8rec3] 5 =
      predictExpenses zeroFit initExpenseState [c8rec1, c8rec2, c8rec3] 5 :=
  c10_fresh_predictor_deterministic zeroFit [c8rec1, c8rec2, c8rec3] 5 _ _ rfl rfl

/-!  ## Budget optimizer (`models/budget_optimizer.py`)

`BudgetOptimizer` is pure: its two tables are constants of the instance
and `optimize` reads but never writes them.  The budget mapping is
embedded as an association list with the fixed insertion order of the
Python dictionaries; updating a present key is `updateKey` (the key lists
in play are duplicate-free, matching dictionary semantics). -/

/-- Expense record as consumed by the optimizer: category and amount keys,
each possibly missing. -/
structure OExpenseRec where
  category : Option String
  amount : Option ℚ
deriving DecidableEq

/-- Income record as consumed by the optimizer: amount and date keys. -/
structure OIncomeRec where
  amount : Option ℚ
  date : DateField
deriving DecidableEq

/-- The category column exists. -/
def oExpHasCat (d : List OExpenseRec) : Bool := d.any fun r => r.category.isSome

/-- The amount column exists. -/
def oExpHasAmt (d : List OExpenseRec) : Bool := d.any fun r => r.amount.isSome

/-- Column sum of the expense amounts. -/
def oExpTotal (d : List OExpenseRec) : ℚ := (d.filterMap fun r => r.amount).sum

/-- The amount column exists in the income records. -/
def oIncHasAmt (d : List OIncomeRec) : Bool := d.any fun r => r.amount.isSome

/-- The date column exists in the income records. -/
def oIncHasDate (d : List OIncomeRec) : Bool := d.any fun r => !r.date.isAbsent

/-- Whether converting the income date column raises. -/
def oIncParseFails (d : List OIncomeRec) : Bool := d.any fun r => r.date.isBad

/-- Column sum of the income amounts. -/
def oIncTotal (d : List OIncomeRec) : ℚ := (d.filterMap fun r => r.amount).sum

/-- The distinct year-month keys of the parsed income dates, as the
`groupby` on the formatted month string produces them (records whose date
did not parse are dropped by the grouping). -/
def monthKeys (d : List OIncomeRec) : List (ℤ × ℤ) :=
  uniqueFirst ((d.filterMap fun r => r.date.toParsed).map fun dt => (dt.year, dt.month))

/-- Total amount over the records that carry a parsed date; the sum of the
per-month group sums. -/
def oIncParsedTotal (d : List OIncomeRec) : ℚ :=
  ((d.filter fun r => r.date.toParsed.isSome).filterMap fun r => r.amount).sum

/-- Embedding of `BudgetOptimizer.calculate_total_income`: the mean of the
monthly sums when dates parse, the simple average on a parse failure, the
raw sum without dates, 0 for empty input or a missing amount column. -/
def calculate_total_income (income : List OIncomeRec) : ℚ :=
  if income = [] then 0
  else if oIncHasAmt income = false then 0
  else if oIncHasDate income then
    if oIncParseFails income then oIncTotal income / ((max 1 income.length : ℕ) : ℚ)
    else oIncParsedTotal income / ((monthKeys income).length : ℚ)
  else oIncTotal income

/-- The per-category spending sums, grouped over the records that carry a
category, with the sorted key order of a pandas `groupby`. -/
def spendingByCategory (d : List OExpenseRec) : List (String × ℚ) :=
  (sortStrings (uniqueFirst (d.filterMap fun r => r.category))).map fun c =>
    (c, ((d.filter fun r => r.category = some c).filterMap fun r => r.amount).sum)

/-- Embedding of `BudgetOptimizer.analyze_spending_patterns`: per-category
percentage of total spend, 0 per category when the total is not positive,
and the empty mapping for empty input or missing columns. -/
def analyze_spending_patterns (d : List OExpenseRec) : List (String × ℚ) :=
  if d = [] then []
  else if (oExpHasCat d && oExpHasAmt d) = false then []
  else
    let byCat := spendingByCategory d
    let total := sumVals byCat
    byCat.map fun p => (p.1, if 0 < total then p.2 / total * 100 else 0)

/-- The income `optimize` actually works with: the monthly income when
positive, else the total expense amount when available and positive, else
the fixed default of 50000. -/
def resolvedMonthlyIncome (expenses : List OExpenseRec) (income : List OIncomeRec) : ℚ :=
  let mi := calculate_total_income income
  if mi ≤ 0 then
    let mi2 := if expenses ≠ [] ∧ oExpHasAmt expenses = true then oExpTotal expenses else mi
    if mi2 ≤ 0 then 50000 else mi2
  else mi

/-- The `ideal_allocations` table, in its insertion order. -/
def idealAllocations : List (String × ℚ) :=
  [("housing", 30), ("utilities", 10), ("food", 15), ("transportation", 10),
   ("entertainment", 5), ("health", 10), ("education", 5), ("other", 15)]

/-- The `minimum_allocations` table, in its insertion order. -/
def minimumAllocations : List (String × ℚ) :=
  [("housing", 20), ("utilities", 5), ("food", 10), ("transportation", 5),
   ("health", 5), ("education", 2), ("entertainment", 2), ("other", 5)]

/-- The keys of an association list. -/
def keysOf (l : List (String × ℚ)) : List String := l.map fun p => p.1

/-- Dictionary lookup in an association list (0 when absent; the budget
dictionaries in play always contain the keys that are looked up). -/
def lookupD (l : List (String × ℚ)) (k : String) : ℚ :=
  ((l.find? fun p => p.1 == k).map fun p => p.2).getD 0

/-- Dictionary assignment: update the value at a present key. -/
def updateKey (k : String) (f : ℚ → ℚ) (b : List (String × ℚ)) : List (String × ℚ) :=
  b.map fun p => if p.1 = k then (p.1, f p.2) else p

/-- One step-4 adjustment of `optimize`: for a spending pattern entry whose
category is a known budget category, shrink the allocation to the current
spending when that is smaller. -/
def applyPattern (mi : ℚ) (b : List (String × ℚ)) (pat : String × ℚ) :
    List (String × ℚ) :=
  if pat.1 ∈ keysOf b then
    updateKey pat.1 (fun v => if pat.2 / 100 * mi < v then pat.2 / 100 * mi else v) b
  else b

/-- One step-5 adjustment of `optimize`: raise an allocation below the
minimum to the minimum. -/
def applyMinimum (mi : ℚ) (b : List (String × ℚ)) (e : String × ℚ) :
    List (String × ℚ) :=
  if e.1 ∈ keysOf b then
    updateKey e.1 (fun v => if v < e.2 / 100 * mi then e.2 / 100 * mi else v) b
  else b

/-- One step-6 adjustment of `optimize`: move halfway from the prior budget
amount to the newly computed one. -/
def applyBlend (b : List (String × ℚ)) (e : String × ℚ) : List (String × ℚ) :=
  if e.1 ∈ keysOf b then updateKey e.1 (fun v => (e.2 + v) / 2) b else b

/-- Round half to even, as Python rounds. -/
def roundHalfEven (x : ℚ) : ℤ :=
  if x - Int.floor x < 1/2 then Int.floor x
  else if 1/2 < x - Int.floor x then Int.floor x + 1
  else if Int.floor x % 2 = 0 then Int.floor x else Int.floor x + 1

/-- Rounding to 2 decimal places, modelling `round(x, 2)`. -/
def round2 (x : ℚ) : ℚ := (roundHalfEven (x * 100) : ℚ) / 100

/-- Embedding of `BudgetOptimizer.optimize`.  An absent `current_budget`
and an empty mapping are both falsy in the `if current_budget` test; the
same applies to `if spending_patterns`. -/
def optimize (expenses : List OExpenseRec) (income : List OIncomeRec)
    (current_budget : Option (List (String × ℚ))) : List (String × ℚ) :=
  let patterns := analyze_spending_patterns expenses
  let mi := resolvedMonthlyIncome expenses income
  let b0 := idealAllocations.map fun p => (p.1, p.2 / 100 * mi)
  let b1 := if patterns ≠ [] then patterns.foldl (applyPattern mi) b0 else b0
  let b2 := minimumAllocations.foldl (applyMinimum mi) b1
  let cb := current_budget.getD []
  let b3 := if cb ≠ [] then cb.foldl applyBlend b2 else b2
  b3.map fun p => (p.1, round2 p.2)

/-- Updating a key preserves the key list. -/
lemma keysOf_updateKey (k : String) (f : ℚ → ℚ) (b : List (String × ℚ)) :
    keysOf (updateKey k f b) = keysOf b := by
  simp only [keysOf, updateKey, List.map_map]
  apply List.map_congr_left
  intro p hp
  by_cases h : p.1 = k <;> simp [h]

/-- A pattern step preserves the key list. -/
lemma keysOf_applyPattern (mi : ℚ) (b : List (String × ℚ)) (pat : String × ℚ) :
    keysOf (applyPattern mi b pat) = keysOf b := by
  unfold applyPattern
  split_ifs
  · exact keysOf_updateKey _ _ _
  · rfl

/-- The pattern fold preserves the key list. -/
lemma keysOf_foldl_applyPattern (mi : ℚ) :
    ∀ (pats : List (String × ℚ)) (b : List (String × ℚ)),
    keysOf (pats.foldl (applyPattern mi) b) = keysOf b := by
  intro pats
  induction pats with
  | nil => intro b; rfl
  | cons p t ih =>
    intro b
    simp only [List.foldl_cons]
    rw [ih, keysOf_applyPattern]

/-- A minimum step preserves the key list. -/
lemma keysOf_applyMinimum (mi : ℚ) (b : List (String × ℚ)) (e : String × ℚ) :
    keysOf (applyMinimum mi b e) = keysOf b := by
  unfold applyMinimum
  split_ifs
  · exact keysOf_updateKey _ _ _
  · rfl

/-- The minimum fold preserves the key list. -/
lemma keysOf_foldl_applyMinimum (mi : ℚ) :
    ∀ (es : List (String × ℚ)) (b : List (String × ℚ)),
    keysOf (es.foldl (applyMinimum mi) b) = keysOf b := by
  intro es
  induction es with
  | nil => intro b; rfl
  | cons e t ih =>
    intro b
    simp only [List.foldl_cons]
    rw [ih, keysOf_applyMinimum]

/-- Lookup after updating the looked-up key applies the update to the old
value. -/
lemma lookupD_updateKey_self {k : String} {b : List (String × ℚ)} (f : ℚ → ℚ)
    (hk : k ∈ keysOf b) : lookupD (updateKey k f b) k = f (lookupD b k) := by
  induction b with
  | nil => simp [keysOf] at hk
  | cons p t ih =>
    by_cases h : p.1 = k
    · simp [updateKey, lookupD, List.find?_cons, h]
    · have hk2 : k ∈ keysOf t := by
        simp only [keysOf, List.map_cons, List.mem_cons] at hk
        rcases hk with hc | hc
        · exact absurd hc.symm h
        · exact hc
      have hne : (p.1 == k) = false := beq_eq_false_iff_ne.mpr h
      simp only [updateKey, List.map_cons, if_neg h] at *
      simp only [lookupD, List.find?_cons, hne] at *
      exact ih hk2

/-- Lookup at a different key is unchanged by an update. -/
lemma lookupD_updateKey_ne {k k2 : String} (f : ℚ → ℚ) (b : List (String × ℚ))
    (h : k2 ≠ k) : lookupD (updateKey k f b) k2 = lookupD b k2 := by
  induction b with
  | nil => rfl
  | cons p t ih =>
    by_cases hp : p.1 = k
    · have hne : (p.1 == k2) = false := beq_eq_false_iff_ne.mpr (fun hc => h (hc.symm.trans hp))
      simp only [updateKey, List.map_cons, if_pos hp, lookupD, List.find?_cons, hne] at *
      exact ih
    · by_cases hp2 : p.1 = k2
      · have heq : (p.1 == k2) = true := beq_iff_eq.mpr hp2
        simp only [updateKey, List.map_cons, if_neg hp, lookupD, List.find?_cons, heq]
      · have hne : (p.1 == k2) = false := beq_eq_false_iff_ne.mpr hp2
        simp only [updateKey, List.map_cons, if_neg hp, lookupD, List.find?_cons, hne] at *
        exact ih

/-- A minimum step at the looked-up key enforces the floor. -/
lemma lookupD_applyMinimum_self (mi : ℚ) {b : List (String × ℚ)} {e : String × ℚ}
    (hk : e.1 ∈ keysOf b) : e.2 / 100 * mi ≤ lookupD (applyMinimum mi b e) e.1 := by
  unfold applyMinimum
  rw [if_pos hk, lookupD_updateKey_self _ hk]
  split_ifs with h
  · exact le_refl _
  · exact not_lt.mp h

/-- A minimum step at a different key leaves the lookup unchanged. -/
lemma lookupD_applyMinimum_ne (mi : ℚ) (b : List (String × ℚ)) (e : String × ℚ)
    {k2 : String} (h : k2 ≠ e.1) : lookupD (applyMinimum mi b e) k2 = lookupD b k2 := by
  unfold applyMinimum
  split_ifs
  · exact lookupD_updateKey_ne _ _ h
  · rfl

/-- A minimum fold over entries whose keys all differ from the looked-up
key leaves the lookup unchanged. -/
lemma lookupD_foldl_applyMinimum_ne (mi : ℚ) {k2 : String} :
    ∀ (es : List (String × ℚ)) (b : List (String × ℚ)), (∀ e ∈ es, e.1 ≠ k2) →
    lookupD (es.foldl (applyMinimum mi) b) k2 = lookupD b k2 := by
  intro es
  induction es with
  | nil => intro b _; rfl
  | cons e t ih =>
    intro b hne
    simp only [List.foldl_cons]
    rw [ih _ (fun x hx => hne x (List.mem_cons_of_mem _ hx)),
      lookupD_applyMinimum_ne _ _ _ (fun hc => hne e (List.mem_cons_self e t) hc.symm)]

/-- The minimum fold enforces every floor of a duplicate-free table whose
keys are present in the budget. -/
lemma foldl_applyMinimum_bound (mi : ℚ) :
    ∀ (es : List (String × ℚ)) (b : List (String × ℚ)), (keysOf es).Nodup →
    ∀ e ∈ es, e.1 ∈ keysOf b →
    e.2 / 100 * mi ≤ lookupD (es.foldl (applyMinimum mi) b) e.1 := by
  intro es
  induction es with
  | nil =>
    intro b _ e he
    simp at he
  | cons e0 rest ih =>
    intro b hnd e he hk
    simp only [List.foldl_cons]
    rcases List.mem_cons.mp he with rfl | hrest
    · have h1 : e.2 / 100 * mi ≤ lookupD (applyMinimum mi b e) e.1 :=
        lookupD_applyMinimum_self mi hk
      have hnotin : e.1 ∉ keysOf rest := by
        simp only [keysOf, List.map_cons, List.nodup_cons] at hnd
        exact hnd.1
      have hne : ∀ e2 ∈ rest, e2.1 ≠ e.1 := by
        intro e2 he2 hc
        exact hnotin (hc ▸ List.mem_map_of_mem _ he2)
      rw [lookupD_foldl_applyMinimum_ne mi rest _ hne]
      exact h1
    · have hk2 : e.1 ∈ keysOf (applyMinimum mi b e0) := by
        rw [keysOf_applyMinimum]
        exact hk
      have hnd2 : (keysOf rest).Nodup := by
        simp only [keysOf, List.map_cons, List.nodup_cons] at hnd
        exact hnd.2
      exact ih (applyMinimum mi b e0) hnd2 e hrest hk2

/-- Final rounding distributes over the lookup of a present key. -/
lemma lookupD_map_round2 {k : String} {b : List (String × ℚ)} (hk : k ∈ keysOf b) :
    lookupD (b.map fun p => (p.1, round2 p.2)) k = round2 (lookupD b k) := by
  induction b with
  | nil => simp [keysOf] at hk
  | cons p t ih =>
    by_cases h : p.1 = k
    · have heq : (p.1 == k) = true := beq_iff_eq.mpr h
      simp only [List.map_cons, lookupD, List.find?_cons, heq]
      rfl
    · have hne : (p.1 == k) = false := beq_eq_false_iff_ne.mpr h
      have hk2 : k ∈ keysOf t := by
        simp only [keysOf, List.map_cons, List.mem_cons] at hk
        rcases hk with hc | hc
        · exact absurd hc.symm h
        · exact hc
      simp only [List.map_cons, lookupD, List.find?_cons, hne] at *
      exact ih hk2

/-- Rounding to 2 decimals loses at most 1/200 downward. -/
lemma round2_lb (x : ℚ) : x - 1/200 ≤ round2 x := by
  have hf : (Int.floor (x * 100) : ℚ) ≤ x * 100 := Int.floor_le _
  have hf2 : x * 100 - 1 < (Int.floor (x * 100) : ℚ) := by
    exact_mod_cast Int.sub_one_lt_floor (x * 100)
  unfold round2 roundHalfEven
  split_ifs with h1 h2 h3
  · rw [le_div_iff₀ (by norm_num : (0:ℚ) < 100)]
    linarith
  · rw [le_div_iff₀ (by norm_num : (0:ℚ) < 100)]
    push_cast
    linarith
  · rw [le_div_iff₀ (by norm_num : (0:ℚ) < 100)]
    linarith
  · rw [le_div_iff₀ (by norm_num : (0:ℚ) < 100)]
    push_cast
    linarith

/-- C1 (amended): with no prior budget, every returned allocation is at
least its minimum floor `min_percentage/100 × monthly_income` (with the
monthly income resolved exactly as `optimize` resolves it), up to the
final 2-decimal rounding, which loses at most 1/200.  Before rounding the
floor holds exactly; with a prior budget supplied the gradual-adjustment
averaging can drop an allocation strictly below the floor (see the
counterexample). -/
theorem c1_minimum_floor_without_prior (expenses : List OExpenseRec)
    (income : List OIncomeRec) (cat : String) (minp : ℚ)
    (h : (cat, minp) ∈ minimumAllocations) :
    minp / 100 * resolvedMonthlyIncome expenses income - 1/200 ≤
      lookupD (optimize expenses income none) cat := by
  have hsub : ∀ p ∈ minimumAllocations, p.1 ∈ keysOf idealAllocations := by decide
  have hnd : (keysOf minimumAllocations).Nodup := by decide
  have hkideal : cat ∈ keysOf idealAllocations := hsub (cat, minp) h
  simp only [optimize, Option.getD_none, ne_eq, not_true_eq_false, if_false]
  set mi := resolvedMonthlyIncome expenses income with hmi
  set b0 := idealAllocations.map fun p => (p.1, p.2 / 100 * mi) with hb0
  set b1 := if analyze_spending_patterns expenses ≠ []
    then (analyze_spending_patterns expenses).foldl (applyPattern mi) b0 else b0 with hb1
  have hkeys0 : keysOf b0 = keysOf idealAllocations := by
    rw [hb0]
    simp only [keysOf, List.map_map]
    apply List.map_congr_left
    intro p hp
    rfl
  have hkeys1 : keysOf b1 = keysOf idealAllocations := by
    rw [hb1]
    split_ifs
    · rw [keysOf_foldl_applyPattern, hkeys0]
    · exact hkeys0
  have hk1 : cat ∈ keysOf b1 := hkeys1 ▸ hkideal
  have hbound : minp / 100 * mi ≤
      lookupD (minimumAllocations.foldl (applyMinimum mi) b1) cat :=
    foldl_applyMinimum_bound mi minimumAllocations b1 hnd (cat, minp) h hk1
  have hk2 : cat ∈ keysOf (minimumAllocations.foldl (applyMinimum mi) b1) := by
    rw [keysOf_foldl_applyMinimum, hkeys1]
    exact hkideal
  rw [lookupD_map_round2 hk2]
  have hr := round2_lb (lookupD (minimumAllocations.foldl (applyMinimum mi) b1) cat)
  linarith

/-- Witness for C1 at empty inputs: the housing allocation meets its floor
up to rounding. -/
theorem c1_witness :
    (20 : ℚ) / 100 * resolvedMonthlyIncome [] [] - 1/200 ≤
      lookupD (optimize [] [] none) "housing" :=
  c1_minimum_floor_without_prior [] [] "housing" 20 (by decide)

/-- With empty expenses and income the optimizer falls back to the 50000
default income. -/
lemma optimizer_mi_empty : resolvedMonthlyIncome [] [] = 50000 := by
  norm_num [resolvedMonthlyIncome, calculate_total_income]

/-- The seeded ideal budget at the default income of 50000. -/
def defaultSeedBudget : List (String × ℚ) :=
  [("housing", 15000), ("utilities", 5000), ("food", 7500), ("transportation", 5000),
   ("entertainment", 2500), ("health", 5000), ("education", 2500), ("other", 7500)]

/-- Rounding to 2 decimals fixes a value whose hundredfold is an
integer. -/
lemma round2_eq_self {x : ℚ} (n : ℤ) (hx : x * 100 = (n : ℚ)) : round2 x = x := by
  unfold round2 roundHalfEven
  rw [hx, Int.floor_intCast]
  simp only [sub_self]
  rw [if_pos (by norm_num : (0 : ℚ) < 1/2)]
  rw [div_eq_iff (by norm_num : (100 : ℚ) ≠ 0)]
  linarith

/-- Final rounding is the identity on the default seed budget. -/
lemma round_map_defaultSeed :
    defaultSeedBudget.map (fun p => (p.1, round2 p.2)) = defaultSeedBudget := by
  have r1 : round2 (15000 : ℚ) = 15000 := round2_eq_self 1500000 (by norm_num)
  have r2 : round2 (5000 : ℚ) = 5000 := round2_eq_self 500000 (by norm_num)
  have r3 : round2 (7500 : ℚ) = 7500 := round2_eq_self 750000 (by norm_num)
  have r4 : round2 (2500 : ℚ) = 2500 := round2_eq_self 250000 (by norm_num)
  simp only [defaultSeedBudget, List.map_cons, List.map_nil, r1, r2, r3, r4]

/-- On empty expenses and income, `optimize` reaches the blending step with
the seeded ideal budget at the default income untouched by patterns and
floors. -/
lemma optimize_empty_shape (cb : Option (List (String × ℚ))) :
    optimize [] [] cb =
      (if cb.getD [] ≠ [] then (cb.getD []).foldl applyBlend defaultSeedBudget
       else defaultSeedBudget).map fun p => (p.1, round2 p.2) := by
  have hseed : (idealAllocations.map fun p => (p.1, p.2 / 100 * (50000 : ℚ))) =
      defaultSeedBudget := by
    norm_num [idealAllocations, defaultSeedBudget]
  have hm1 : applyMinimum (50000 : ℚ) defaultSeedBudget ("housing", 20) =
      defaultSeedBudget := by
    norm_num [applyMinimum, updateKey, keysOf, defaultSeedBudget]
    all_goals decide
  have hm2 : applyMinimum (50000 : ℚ) defaultSeedBudget ("utilities", 5) =
      defaultSeedBudget := by
    norm_num [applyMinimum, updateKey, keysOf, defaultSeedBudget]
  have hm3 : applyMinimum (50000 : ℚ) defaultSeedBudget ("food", 10) =
      defaultSeedBudget := by
    norm_num [applyMinimum, updateKey, keysOf, defaultSeedBudget]
    all_goals decide
  have hm4 : applyMinimum (50000 : ℚ) defaultSeedBudget ("transportation", 5) =
      defaultSeedBudget := by
    norm_num [applyMinimum, updateKey, keysOf, defaultSeedBudget]
  have hm5 : applyMinimum (50000 : ℚ) defaultSeedBudget ("health", 5) =
      defaultSeedBudget := by
    norm_num [applyMinimum, updateKey, keysOf, defaultSeedBudget]
  have hm6 : applyMinimum (50000 : ℚ) defaultSeedBudget ("education", 2) =
      defaultSeedBudget := by
    norm_num [applyMinimum, updateKey, keysOf, defaultSeedBudget]
  have hm7 : applyMinimum (50000 : ℚ) defaultSeedBudget ("entertainment", 2) =
      defaultSeedBudget := by
    norm_num [applyMinimum, updateKey, keysOf, defaultSeedBudget]
  have hm8 : applyMinimum (50000 : ℚ) defaultSeedBudget ("other", 5) =
      defaultSeedBudget := by
    norm_num [applyMinimum, updateKey, keysOf, defaultSeedBudget]
  have hfold : minimumAllocations.foldl (applyMinimum (50000 : ℚ)) defaultSeedBudget =
      defaultSeedBudget := by
    simp only [minimumAllocations, List.foldl_cons, List.foldl_nil, hm1, hm2, hm3, hm4,
      hm5, hm6, hm7, hm8]
  have hpat : analyze_spending_patterns ([] : List OExpenseRec) = [] := rfl
  simp only [optimize, optimizer_mi_empty, hpat]
  rw [if_neg (not_not_intro rfl), hseed, hfold]

/-- C1 counterexample: with a prior budget assigning 0 to housing, the
blending step averages the floored allocation with 0 and the returned
housing allocation (7500) falls strictly below the housing floor
`20/100 × 50000 = 10000`, refuting the unrestricted floor claim. -/
theorem c1_counterexample :
    lookupD (optimize [] [] (some [("housing", 0)])) "housing" <
      20 / 100 * resolvedMonthlyIncome [] [] := by
  have hb : ([("housing", (0 : ℚ))]).foldl applyBlend defaultSeedBudget =
      [("housing", 7500), ("utilities", 5000), ("food", 7500), ("transportation", 5000),
       ("entertainment", 2500), ("health", 5000), ("education", 2500), ("other", 7500)] := by
    norm_num [applyBlend, updateKey, keysOf, defaultSeedBudget, List.foldl_cons,
      List.foldl_nil]
    all_goals decide
  have r2 : round2 (5000 : ℚ) = 5000 := round2_eq_self 500000 (by norm_num)
  have r3 : round2 (7500 : ℚ) = 7500 := round2_eq_self 750000 (by norm_num)
  have r4 : round2 (2500 : ℚ) = 2500 := round2_eq_self 250000 (by norm_num)
  have h1 : optimize [] [] (some [("housing", 0)]) =
      [("housing", 7500), ("utilities", 5000), ("food", 7500), ("transportation", 5000),
       ("entertainment", 2500), ("health", 5000), ("education", 2500), ("other", 7500)] := by
    rw [optimize_empty_shape]
    simp only [Option.getD_some]
    rw [if_pos (List.cons_ne_nil _ _), hb]
    simp only [List.map_cons, List.map_nil, r2, r3, r4]
  rw [h1, optimizer_mi_empty]
  norm_num [lookupD, List.find?]

/-- C9: with empty expenses, empty income and no prior budget the monthly
income resolves to the 50000 default and `optimize` returns exactly the 8
fixed categories carrying the seeded ideal percentages of 50000, summing
to exactly 50000. -/
theorem c9_default_income_seed :
    optimize [] [] none =
      [("housing", 15000), ("utilities", 5000), ("food", 7500), ("transportation", 5000),
       ("entertainment", 2500), ("health", 5000), ("education", 2500), ("other", 7500)]
    ∧ sumVals (optimize [] [] none) = 50000
    ∧ resolvedMonthlyIncome [] [] = 50000 := by
  have h1 : optimize [] [] none = defaultSeedBudget := by
    rw [optimize_empty_shape]
    simp only [Option.getD_none]
    rw [if_neg (not_not_intro rfl)]
    exact round_map_defaultSeed
  refine ⟨h1, ?_, optimizer_mi_empty⟩
  rw [h1]
  norm_num [sumVals, defaultSeedBudget]

end BudgetPlanner
